import Mathlib

/-!
Shallow embedding of the YeetSheets country-processing scripts:
`process-countries.py` (the notes/footnotes-aware variant, namespace `PC`)
and `yeetsheets.py` (the format-string variant, namespace `YT`).
Workbook loading and TSV writing are external capabilities; the embedding
starts from the flattened data they produce: a template sheet given as its
two rows, and per-country sheets given as finite coordinate-to-value maps.
-/

/-- A cell value as produced by the workbook flattener: text or a number. -/
inductive Val where
  | str (s : String)
  | int (n : Int)
deriving DecidableEq

/-- A country's flattened sheet: a finite map from coordinate strings such
as "B:2" to possibly-blank cell values (Python `None` is `none`). -/
abbrev Sheet := List (String × Option Val)

/-- Python dict lookup `values[coords]` guarded by `coords in values`;
the flattener inserts each coordinate at most once. -/
def lookupCell : Sheet → String → Option (Option Val)
  | [], _ => none
  | (c, v) :: rest, coords => if c = coords then some v else lookupCell rest coords

/-- Python dict assignment `d[k] = v`: updates an existing key in place
(keeping its position) or appends a fresh one at the end. -/
def dictInsert (m : List (String × α)) (k : String) (v : α) : List (String × α) :=
  if m.any (fun p => p.1 == k) then m.map (fun p => if p.1 == k then (k, v) else p)
  else m ++ [(k, v)]

/-- Character class [A-Z]. -/
def isUpperAZ (c : Char) : Bool := 'A' ≤ c && c ≤ 'Z'

/-- Character class [1-9]. -/
def isDigitNZ (c : Char) : Bool := '1' ≤ c && c ≤ '9'

/-- Character class [0-9]. -/
def isDigit0 (c : Char) : Bool := '0' ≤ c && c ≤ '9'

/-- The failure modes of both scripts (Python `RuntimeError`s plus the
uncaught exceptions the code can raise), tagged with the data interpolated
into their messages. -/
inductive Err where
  | formatError (msg : String)
  | duplicateLabel (lab : String)
  | missingCell (coords country : String)
  | tooManyNotes (country : String)
  | tooManyFootnotes (country : String)
  | typeError (country : String)
  | indexError (country : String)
deriving DecidableEq

/-- The diagnostic message attached to each error, as the scripts format it. -/
def errMsg : Err → String
  | .formatError m => m
  | .duplicateLabel l => "Duplicate label " ++ l ++ " in template"
  | .missingCell coords country => "No data for cell " ++ coords ++ " in country " ++ country
  | .tooManyNotes c => "More than 10 notes for country " ++ c
  | .tooManyFootnotes c => "More than 10 footnotes for country " ++ c
  | .typeError c => "TypeError while joining a footnote for country " ++ c
  | .indexError c => "IndexError writing the image link for country " ++ c

/-- The duplicate-label scan at the top of both `applyTemplate`s (a Python
set-membership loop), returning the first repeated label. -/
def findDup : List String → List String → Option String
  | [], _ => none
  | l :: rest, seen => if seen.contains l then some l else findDup rest (l :: seen)

namespace PC

/-- LAST_DATA_ROW from process-countries.py. -/
def LAST_DATA_ROW : Nat := 69

/-- MAX_NOTES from process-countries.py. -/
def MAX_NOTES : Nat := 10

/-- MAX_FOOTNOTES from process-countries.py. -/
def MAX_FOOTNOTES : Nat := 10

/-- IMAGE_COLUMN from process-countries.py. -/
def IMAGE_COLUMN : Nat := 3

/-- IMAGE_FORMAT = "/Links/%s.svg", applied by %-interpolation to the country name. -/
def IMAGE_FORMAT (country : String) : String := "/Links/" ++ country ++ ".svg"

/-- The compiled regex MATCH_CELL_COORDS = ^[A-Z]:[1-9][0-9]*$ of
process-countries.py, as a decidable matcher over the whole string. -/
def MATCH_CELL_COORDS (s : String) : Bool :=
  match s.toList with
  | c :: k :: d :: ds => isUpperAZ c && k == ':' && isDigitNZ d && ds.all isDigit0
  | _ => false

/-- The per-column loop of loadTemplate: checks every coordinate spec
against MATCH_CELL_COORDS and fills a dict mapping label to coordinates. -/
def loadTemplateLoop : List (String × String) → Nat → List (String × String) →
    Except Err (List (String × String))
  | [], _, acc => .ok acc
  | (lab, coords) :: rest, i, acc =>
    if MATCH_CELL_COORDS coords then loadTemplateLoop rest (i + 1) (dictInsert acc lab coords)
    else .error (.formatError
        ("Malformed cell coordinates in template at column " ++ toString i ++ ": " ++ coords))

/-- loadTemplate of process-countries.py, starting from the two rows of the
template sheet (row 1: labels, row 2: coordinate specs). -/
def loadTemplate (labels specs : List String) : Except Err (List (String × String)) :=
  if labels.length = specs.length then loadTemplateLoop (labels.zip specs) 0 []
  else .error (.formatError
      "Number of column labels in template does not match number of cell coordinates")

/-- getColA: the value of cell A:rowNum, reading an absent coordinate as None. -/
def getColA (values : Sheet) (rowNum : Nat) : Option Val :=
  match lookupCell values ("A:" ++ toString rowNum) with
  | none => none
  | some v => v

/-- The blank-skipping `while getColA(source, rowNum) == None` loops of
processNotes, with explicit fuel: the source loop is unbounded and loops
forever (modelled as `none`) when every remaining column-A cell is blank. -/
def skipBlanks (colA : Nat → Option Val) : Nat → Nat → Option Nat
  | 0, _ => none
  | fuel + 1, r =>
    match colA r with
    | some _ => some r
    | none => skipBlanks colA fuel (r + 1)

/-- The bounded note-collection loop of processNotes: collects while fewer
than `k` values are held and column A is non-blank; returns the collected
values together with the row the loop stopped at. -/
def collectColA (colA : Nat → Option Val) : Nat → Nat → List Val × Nat
  | 0, r => ([], r)
  | k + 1, r =>
    match colA r with
    | none => ([], r)
    | some v =>
      (v :: (collectColA colA k (r + 1)).1, (collectColA colA k (r + 1)).2)

/-- Structural list indexing (the `l[i]?` of the claims, written so it
reduces on a literal index with a symbolic tail). -/
def charAtList : List Char → Nat → Option Char
  | [], _ => none
  | c :: _, 0 => some c
  | _ :: cs, n + 1 => charAtList cs n

/-- Python one-character string indexing `s[i]`; `none` models IndexError. -/
def pyCharAt (s : String) (i : Nat) : Option String :=
  match charAtList s.data i with
  | none => none
  | some c => some (String.mk [c])

/-- Python slicing `s[i:]` (total: an out-of-range start yields ""). -/
def pySliceFrom (s : String) (i : Nat) : String := String.mk (s.data.drop i)

/-- The footnote-joining expression `value[0] + "\t" + value[2:]` of
processNotes; `none` models the IndexError raised on an empty string and
the TypeError raised on a numeric value. -/
def footnoteJoin : Val → Option String
  | .str s =>
    match pyCharAt s 0 with
    | none => none
    | some c => some (c ++ "\t" ++ pySliceFrom s 2)
  | .int _ => none

/-- The bounded footnote-collection loop of processNotes: like the notes
loop but each value is passed through `footnoteJoin` as it is appended;
`none` models the exception a non-joinable value raises mid-loop. -/
def collectFootnotes (colA : Nat → Option Val) : Nat → Nat → Option (List String × Nat)
  | 0, r => some ([], r)
  | k + 1, r =>
    match colA r with
    | none => some ([], r)
    | some v =>
      match footnoteJoin v with
      | none => none
      | some s =>
        match collectFootnotes colA k (r + 1) with
        | none => none
        | some (fs, r2) => some (s :: fs, r2)

/-- The notes half of processNotes: skip blanks after LAST_DATA_ROW, collect
up to MAX_NOTES column-A values, fail when one more non-blank value remains,
pad with None up to MAX_NOTES. Returns the ten note entries and the row at
which collection stopped; outer `none` is fuel exhaustion of the unbounded
blank-skipping loop. -/
def notesPhase (colA : Nat → Option Val) (country : String) (fuel : Nat) :
    Option (Except Err (List (Option Val) × Nat)) :=
  match skipBlanks colA fuel (LAST_DATA_ROW + 1) with
  | none => none
  | some r =>
    if (colA (collectColA colA MAX_NOTES r).2).isSome then
      some (.error (.tooManyNotes country))
    else some (.ok ((collectColA colA MAX_NOTES r).1.map some
        ++ List.replicate (MAX_NOTES - (collectColA colA MAX_NOTES r).1.length) none,
      (collectColA colA MAX_NOTES r).2))

/-- The footnotes half of processNotes: skip blanks from where the notes
block stopped, collect up to MAX_FOOTNOTES joined values, fail when one more
non-blank value remains, pad with None up to MAX_FOOTNOTES. -/
def footnotesPhase (colA : Nat → Option Val) (country : String) (startRow fuel : Nat) :
    Option (Except Err (List (Option Val))) :=
  match skipBlanks colA fuel startRow with
  | none => none
  | some r =>
    match collectFootnotes colA MAX_FOOTNOTES r with
    | none => some (.error (.typeError country))
    | some (fs, r2) =>
      if (colA r2).isSome then some (.error (.tooManyFootnotes country))
      else some (.ok ((fs.map fun s => some (Val.str s))
          ++ List.replicate (MAX_FOOTNOTES - fs.length) none))

/-- processNotes of process-countries.py over an abstract column-A reader:
appends the ten note entries and then the ten footnote entries to the
target row. `none` means a blank-skipping loop ran forever. -/
def processNotesOn (colA : Nat → Option Val) (country : String) (target : List (Option Val))
    (fuel : Nat) : Option (Except Err (List (Option Val))) :=
  match notesPhase colA country fuel with
  | none => none
  | some (.error e) => some (.error e)
  | some (.ok (notes, r)) =>
    match footnotesPhase colA country r fuel with
    | none => none
    | some (.error e) => some (.error e)
    | some (.ok fns) => some (.ok (target ++ notes ++ fns))

/-- processNotes of process-countries.py as called on a country's flattened
sheet. -/
def processNotes (country : String) (source : Sheet) (target : List (Option Val))
    (fuel : Nat) : Option (Except Err (List (Option Val))) :=
  processNotesOn (getColA source) country target fuel

/-- formatImageLink: `target[IMAGE_COLUMN] = IMAGE_FORMAT % country`;
`none` models the IndexError Python raises when the row is too short. -/
def formatImageLink (country : String) (target : List (Option Val)) :
    Option (List (Option Val)) :=
  if IMAGE_COLUMN < target.length then
    some (target.set IMAGE_COLUMN (some (Val.str (IMAGE_FORMAT country))))
  else none

/-- The templated-columns loop of applyTemplate for one country: looks every
template coordinate up in the country's flattened sheet, failing on the
first absent coordinate. -/
def buildRow : List (String × String) → String → Sheet → Except Err (List (Option Val))
  | [], _, _ => .ok []
  | (_, coords) :: rest, country, values =>
    match lookupCell values coords with
    | none => .error (.missingCell coords country)
    | some v =>
      match buildRow rest country values with
      | .error e => .error e
      | .ok row => .ok (v :: row)

/-- One country's full row: templated columns, then processNotes, then
formatImageLink, in the order of the body of applyTemplate's country loop. -/
def countryRow (template : List (String × String)) (country : String) (values : Sheet)
    (fuel : Nat) : Option (Except Err (List (Option Val))) :=
  match buildRow template country values with
  | .error e => some (.error e)
  | .ok row =>
    match processNotes country values row fuel with
    | none => none
    | some (.error e) => some (.error e)
    | some (.ok row2) =>
      match formatImageLink country row2 with
      | none => some (.error (.indexError country))
      | some row3 => some (.ok row3)

/-- The country loop of applyTemplate, producing one row per country in
sheet order and aborting on the first failing country. -/
def applyTemplateLoop (template : List (String × String)) :
    List (String × Sheet) → Nat → Option (Except Err (List (List (Option Val))))
  | [], _ => some (.ok [])
  | (c, values) :: rest, fuel =>
    match countryRow template c values fuel with
    | none => none
    | some (.error e) => some (.error e)
    | some (.ok row) =>
      match applyTemplateLoop template rest fuel with
      | none => none
      | some (.error e) => some (.error e)
      | some (.ok rows) => some (.ok (row :: rows))

/-- The header row of applyTemplate: the template labels followed by the
synthetic NOTE1..NOTE10 and FOOTNOTE1..FOOTNOTE10 labels. -/
def headerRow (template : List (String × String)) : List (Option Val) :=
  (template.map fun p => some (Val.str p.1))
    ++ ((List.range MAX_NOTES).map fun i => some (Val.str ("NOTE" ++ toString (i + 1))))
    ++ ((List.range MAX_FOOTNOTES).map fun i => some (Val.str ("FOOTNOTE" ++ toString (i + 1))))

/-- applyTemplate of process-countries.py: duplicate-label check, header
row, then one row per country. -/
def applyTemplate (template : List (String × String)) (countries : List (String × Sheet))
    (fuel : Nat) : Option (Except Err (List (List (Option Val)))) :=
  match findDup (template.map Prod.fst) [] with
  | some l => some (.error (.duplicateLabel l))
  | none =>
    match applyTemplateLoop template countries fuel with
    | none => none
    | some (.error e) => some (.error e)
    | some (.ok rows) => some (.ok (headerRow template :: rows))

end PC

namespace YT

/-- Removes `p` from the front of `l` when `l` starts with it. -/
def stripFront : List Char → List Char → Option (List Char)
  | [], l => some l
  | _ :: _, [] => none
  | p :: ps, c :: cs => if c = p then stripFront ps cs else none

/-- Splits a character list at the first occurrence of the pattern `ph`. -/
def splitOnceAux (ph : List Char) : List Char → List Char → Option (List Char × List Char)
  | _, [] => none
  | acc, c :: cs =>
    match stripFront ph (c :: cs) with
    | some rest => some (acc.reverse, rest)
    | none => splitOnceAux ph (c :: acc) cs

/-- Splits a character list around the first occurrence of the pattern. -/
def splitOnce (ph cs : List Char) : Option (List Char × List Char) :=
  match stripFront ph cs with
  | some rest => some ([], rest)
  | none => splitOnceAux ph [] cs

/-- True when the text holds no brace, so Python str.format copies it verbatim. -/
def noBrace (l : List Char) : Bool := l.all fun c => !(c = '\x7b' || c = '\x7d')

/-- The characters of the placeholder "\x7b\x7d". -/
def phPlain : List Char := ['\x7b', '\x7d']

/-- The characters of the placeholder "\x7b:.1f\x7d". -/
def phFloat1 : List Char := ['\x7b', ':', '.', '1', 'f', '\x7d']

/-- How Python str.format renders a single value for the plain placeholder. -/
def pyStr : Option Val → String
  | none => "None"
  | some (.str s) => s
  | some (.int n) => toString n

/-- Modelled fragment of Python's `fmt.format(value)` as used by
yeetsheets.py (an external library capability): a format text that is
either brace-free, or brace-free literal text around one plain placeholder
or one `:.1f` placeholder. Formats outside the fragment, a `:.1f`
placeholder given a non-integer, and mismatched braces all raise in Python
and are mapped to `none`, applyTemplate's recoverable-failure path. -/
def applyFormat (fmt : String) (v : Option Val) : Option String :=
  let cs := fmt.toList
  if noBrace cs then some fmt
  else
    match splitOnce phFloat1 cs with
    | some (pre, post) =>
      if noBrace pre && noBrace post then
        match v with
        | some (Val.int n) => some (String.mk pre ++ toString n ++ ".0" ++ String.mk post)
        | _ => none
      else none
    | none =>
      match splitOnce phPlain cs with
      | some (pre, post) =>
        if noBrace pre && noBrace post then some (String.mk pre ++ pyStr v ++ String.mk post)
        else none
      | none => none

/-- The compiled regex MATCH_CELL_COORDS = ^([A-Z]:[1-9][0-9]*)(?:\((.+)\))?$
of yeetsheets.py, returning the coordinate group and the optional format
group on a match. -/
def MATCH_CELL_COORDS (s : String) : Option (String × Option String) :=
  match s.toList with
  | c :: k :: d :: rest =>
    if isUpperAZ c && k == ':' && isDigitNZ d then
      let ds := rest.takeWhile isDigit0
      let coords := String.mk (c :: k :: d :: ds)
      match rest.dropWhile isDigit0 with
      | [] => some (coords, none)
      | op :: tl =>
        if op == '\x28' && 2 ≤ tl.length && tl.getLast? == some '\x29' then
          some (coords, some (String.mk tl.dropLast))
        else none
    else none
  | _ => none

/-- The per-column loop of yeetsheets.py's loadTemplate: a blank (None)
spec cell stops the loop early; a non-matching spec fails; otherwise the
coordinate and optional format string are stored in a dict keyed by label. -/
def loadTemplateLoop : List (String × Option String) → Nat →
    List (String × (String × Option String)) →
    Except Err (List (String × (String × Option String)))
  | [], _, acc => .ok acc
  | (lab, spec) :: rest, i, acc =>
    match spec with
    | none => .ok acc
    | some s =>
      match MATCH_CELL_COORDS s with
      | none => .error (.formatError
          ("Malformed cell coordinates in template at column " ++ toString i ++ ": " ++ s))
      | some groups => loadTemplateLoop rest (i + 1) (dictInsert acc lab groups)

/-- loadTemplate of yeetsheets.py, from the two rows of the template sheet. -/
def loadTemplate (labels : List String) (specs : List (Option String)) :
    Except Err (List (String × (String × Option String))) :=
  if labels.length = specs.length then loadTemplateLoop (labels.zip specs) 0 []
  else .error (.formatError
      "Number of column labels in template does not match number of cell coordinates")

/-- One output cell of yeetsheets.py's applyTemplate: the raw value, or its
formatted rendering when the entry carries a truthy format string; a
formatting failure emits a warning and keeps the raw value. Returns the
cell and the warnings printed for it. -/
def formatCell (country coords : String) (fmt : Option String) (raw : Option Val) :
    Option Val × List String :=
  match fmt with
  | none => (raw, [])
  | some f =>
    if f = "" then (raw, [])
    else
      match applyFormat f raw with
      | some s => (some (Val.str s), [])
      | none => (raw, ["WARNING: Format error for " ++ country ++ " at " ++ coords])

/-- The templated-columns loop of yeetsheets.py's applyTemplate for one
country: each coordinate is looked up (failing on an absent one) and its
value optionally formatted; warnings accumulate in column order. -/
def buildRow : List (String × (String × Option String)) → String → Sheet →
    Except Err (List (Option Val) × List String)
  | [], _, _ => .ok ([], [])
  | (_, (coords, fmt)) :: rest, country, values =>
    match lookupCell values coords with
    | none => .error (.missingCell coords country)
    | some raw =>
      match buildRow rest country values with
      | .error e => .error e
      | .ok (row, warns) =>
        .ok ((formatCell country coords fmt raw).1 :: row,
          (formatCell country coords fmt raw).2 ++ warns)

/-- The country loop of yeetsheets.py's applyTemplate. -/
def applyTemplateLoop (template : List (String × (String × Option String))) :
    List (String × Sheet) → Except Err (List (List (Option Val)) × List String)
  | [] => .ok ([], [])
  | (c, values) :: rest =>
    match buildRow template c values with
    | .error e => .error e
    | .ok (row, warns) =>
      match applyTemplateLoop template rest with
      | .error e => .error e
      | .ok (rows, warns2) => .ok (row :: rows, warns ++ warns2)

/-- applyTemplate of yeetsheets.py: duplicate-label check, header row of
the template labels, then one row per country; also returns the warnings
printed to standard error along the way. -/
def applyTemplate (template : List (String × (String × Option String)))
    (countries : List (String × Sheet)) :
    Except Err (List (List (Option Val)) × List String) :=
  match findDup (template.map Prod.fst) [] with
  | some l => .error (.duplicateLabel l)
  | none =>
    match applyTemplateLoop template countries with
    | .error e => .error e
    | .ok (rows, warns) => .ok ((template.map fun p => some (Val.str p.1)) :: rows, warns)

end YT

/-- Modelled from the spec: the coordinate grammar ^[A-Z]+:[1-9][0-9]*$
that the spec states for cell specifications (one or more column letters). -/
def specCoordGrammar (s : String) : Bool :=
  let cs := s.toList
  (!(cs.takeWhile isUpperAZ).isEmpty) &&
    match cs.dropWhile isUpperAZ with
    | k :: d :: ds => k == ':' && isDigitNZ d && ds.all isDigit0
    | _ => false

/-- True when a process-countries run result is a completed table
(neither an error nor divergence). -/
def isOkResult : Option (Except Err (List (List (Option Val)))) → Bool
  | some (.ok _) => true
  | _ => false

/-- A country sheet supplying cell B:1, one note at A:70 and one footnote
at A:72, so a run over it completes. -/
def dupLabelSheet : Sheet :=
  [("B:1", some (Val.str "X")), ("A:70", some (Val.str "note1")), ("A:72", some (Val.str "1 Fn"))]

/-- Extracts the completed table from a notes-aware run result. -/
def okRows : Option (Except Err (List (List (Option Val)))) → List (List (Option Val))
  | some (.ok rows) => rows
  | _ => []

/-- Extracts the completed table from a richer-variant run result. -/
def okRowsYT : Except Err (List (List (Option Val)) × List String) → List (List (Option Val))
  | .ok (rows, _) => rows
  | _ => []

/-- Extracts the warnings from a richer-variant run result. -/
def okWarnsYT : Except Err (List (List (Option Val)) × List String) → List String
  | .ok (_, warns) => warns
  | _ => []

/-- Extracts the extended row from a processNotes result. -/
def okRowPN : Option (Except Err (List (Option Val))) → List (Option Val)
  | some (.ok row) => row
  | _ => []

/-! ## Shared helper lemmas -/

theorem dictInsert_keys_nodup {α : Type} (m : List (String × α)) (k : String) (v : α)
    (h : (m.map Prod.fst).Nodup) : ((dictInsert m k v).map Prod.fst).Nodup := by
  unfold dictInsert
  by_cases hc : m.any (fun p => p.1 == k) = true
  · simp only [hc, if_pos]
    have : (m.map fun p => if p.1 == k then (k, v) else p).map Prod.fst = m.map Prod.fst := by
      rw [List.map_map]
      apply List.map_congr_left
      intro p _
      by_cases hp : p.1 == k
      · simp only [Function.comp, hp, if_pos]
        exact (eq_of_beq hp).symm
      · simp only [Function.comp, hp]
        simp
    rw [this]; exact h
  · simp only [hc, if_neg, Bool.false_eq_true, not_false_iff]
    rw [List.map_append]
    have hk : k ∉ m.map Prod.fst := by
      intro hmem
      obtain ⟨p, hp, hfst⟩ := List.mem_map.mp hmem
      exact hc (List.any_eq_true.mpr ⟨p, hp, by simp [hfst]⟩)
    simpa using (List.Nodup.concat hk h)

theorem findDup_eq_none (l seen : List String) (h1 : l.Nodup)
    (h2 : ∀ x ∈ l, x ∉ seen) : findDup l seen = none := by
  induction l generalizing seen with
  | nil => rfl
  | cons x rest ih =>
    unfold findDup
    have hx : seen.contains x = false := by
      have := h2 x (List.mem_cons_self x rest)
      simpa using this
    rw [hx]
    simp only [Bool.false_eq_true, if_neg, not_false_iff]
    apply ih (x :: seen) (List.Nodup.of_cons h1)
    intro y hy
    simp only [List.mem_cons]
    rintro (rfl | hmem)
    · exact (List.nodup_cons.mp h1).1 hy
    · exact h2 y (List.mem_cons_of_mem x hy) hmem

theorem PC.loadTemplateLoop_ok_keys_nodup :
    ∀ (pairs : List (String × String)) (i : Nat) (acc t : List (String × String)),
    (acc.map Prod.fst).Nodup → PC.loadTemplateLoop pairs i acc = .ok t →
    (t.map Prod.fst).Nodup := by
  intro pairs
  induction pairs with
  | nil =>
    intro i acc t hacc h
    unfold PC.loadTemplateLoop at h
    cases h
    exact hacc
  | cons p rest ih =>
    intro i acc t hacc h
    obtain ⟨lab, coords⟩ := p
    unfold PC.loadTemplateLoop at h
    by_cases hm : PC.MATCH_CELL_COORDS coords = true
    · rw [if_pos hm] at h
      exact ih (i + 1) (dictInsert acc lab coords) t (dictInsert_keys_nodup acc lab coords hacc) h
    · rw [if_neg hm] at h
      cases h

/-! ## C1: duplicate template labels -/

/-- C1: the claim says a template with two identically labeled columns fails
with FormatError before country data is read. The code disagrees: loadTemplate
stores labels as keys of a Python dict, so a duplicate silently overwrites the
earlier coordinate, and the duplicate-label check inside applyTemplate can never
fire (dict keys are always distinct); the run completes without any error. -/
theorem c1_duplicate_labels_not_rejected :
    PC.loadTemplate ["Name", "Name"] ["A:1", "B:1"] = .ok [("Name", "B:1")] ∧
    isOkResult (PC.applyTemplate [("Name", "B:1")] [("Elbonia", dupLabelSheet)] 4) = true ∧
    ∀ labels specs, ((PC.loadTemplate labels specs).toOption.all
      fun t => (findDup (t.map Prod.fst) []).isNone) = true := by
  refine ⟨rfl, rfl, ?_⟩
  intro labels specs
  unfold PC.loadTemplate
  by_cases hl : labels.length = specs.length
  · rw [if_pos hl]
    cases h : PC.loadTemplateLoop (labels.zip specs) 0 [] with
    | error e => rfl
    | ok t =>
      have hnd : (t.map Prod.fst).Nodup :=
        PC.loadTemplateLoop_ok_keys_nodup (labels.zip specs) 0 [] t (by simp) h
      simp [Except.toOption, findDup_eq_none (t.map Prod.fst) [] hnd (by simp)]
  · rw [if_neg hl]
    rfl

/-! ## C3: termination of processNotes -/

theorem PC.skipBlanks_all_none (colA : Nat → Option Val) (h : ∀ r, colA r = none) :
    ∀ (fuel r : Nat), PC.skipBlanks colA fuel r = none := by
  intro fuel
  induction fuel with
  | zero => intro r; rfl
  | succ n ih =>
    intro r
    unfold PC.skipBlanks
    rw [h r]
    exact ih (r + 1)

/-- C3: the claim says every run terminates, in particular that processNotes
terminates on a flattened mapping with no non-blank column-A value after the
last templated data row. On such a mapping (here: the empty sheet) the first
blank-skipping loop of processNotes never finds a non-blank cell and runs
forever: no fuel bound suffices. -/
theorem c3_process_notes_diverges_without_notes :
    ∀ fuel : Nat, PC.processNotes "Elbonia" [] [] fuel = none := by
  intro fuel
  unfold PC.processNotes PC.processNotesOn PC.notesPhase
  have hall : ∀ r, PC.getColA [] r = none := fun r => rfl
  rw [PC.skipBlanks_all_none (PC.getColA []) hall fuel (PC.LAST_DATA_ROW + 1)]

/-! ## C2: the coordinate grammar accepted by template loading -/

theorem PC.match_cell_coords_cons (c0 k d : Char) (ds : List Char) :
    PC.MATCH_CELL_COORDS (String.mk (c0 :: k :: d :: ds)) =
      (isUpperAZ c0 && (k == ':') && isDigitNZ d && ds.all isDigit0) := rfl

theorem YT.match_cell_coords_cons_rich (c0 k d : Char) (rest : List Char) :
    YT.MATCH_CELL_COORDS (String.mk (c0 :: k :: d :: rest)) =
      (if isUpperAZ c0 && (k == ':') && isDigitNZ d then
        match rest.dropWhile isDigit0 with
        | [] => some (String.mk (c0 :: k :: d :: rest.takeWhile isDigit0), none)
        | op :: tl =>
          if op == '\x28' && 2 ≤ tl.length && tl.getLast? == some '\x29' then
            some (String.mk (c0 :: k :: d :: rest.takeWhile isDigit0), some (String.mk tl.dropLast))
          else none
      else none) := rfl

theorem PC.loadTemplateLoop_ok_iff :
    ∀ (pairs : List (String × String)) (i : Nat) (acc : List (String × String)),
    (∃ t, PC.loadTemplateLoop pairs i acc = .ok t) ↔
      ∀ p ∈ pairs, PC.MATCH_CELL_COORDS p.2 = true := by
  intro pairs
  induction pairs with
  | nil =>
    intro i acc
    constructor
    · intro _ p hp
      exact absurd hp (List.not_mem_nil p)
    · intro _
      exact ⟨acc, rfl⟩
  | cons p rest ih =>
    intro i acc
    obtain ⟨lab, coords⟩ := p
    unfold PC.loadTemplateLoop
    by_cases hm : PC.MATCH_CELL_COORDS coords = true
    · rw [if_pos hm]
      rw [ih (i + 1) (dictInsert acc lab coords)]
      constructor
      · intro hrest q hq
        rcases List.mem_cons.mp hq with rfl | hq'
        · exact hm
        · exact hrest q hq'
      · intro hall q hq
        exact hall q (List.mem_cons_of_mem _ hq)
    · rw [if_neg hm]
      constructor
      · rintro ⟨t, ht⟩
        exact absurd ht (by simp)
      · intro hall
        exact absurd (hall (lab, coords) (List.mem_cons_self _ _)) hm

/-- C2 counterexample: "AA:3" belongs to the grammar ^[A-Z]+:[1-9][0-9]*$
that the claim states, yet both scripts' compiled regex demands exactly one
column letter, so template loading rejects it with a FormatError. -/
theorem c2_counterexample_two_letter_column :
    specCoordGrammar "AA:3" = true ∧
    PC.MATCH_CELL_COORDS "AA:3" = false ∧
    PC.loadTemplate ["Area"] ["AA:3"] =
      .error (.formatError "Malformed cell coordinates in template at column 0: AA:3") ∧
    YT.MATCH_CELL_COORDS "AA:3" = none ∧
    YT.loadTemplate ["Area"] [some "AA:3"] =
      .error (.formatError "Malformed cell coordinates in template at column 0: AA:3") :=
  ⟨rfl, rfl, rfl, rfl, rfl⟩

/-- C2 (amended): template loading accepts exactly the cell specifications
whose coordinate part has a single column letter, matching ^[A-Z]:[1-9][0-9]*$
(in the richer variant with an optional parenthesized format suffix), and a
specification outside that grammar fails with FormatError; a coordinate the
richer regex accepts is the same single-letter coordinate, and every
single-letter coordinate is accepted by the richer regex with no format. -/
theorem c2_single_letter_grammar :
    (∀ labels specs : List String, labels.length = specs.length →
      ((∃ t, PC.loadTemplate labels specs = .ok t) ↔
        ∀ s ∈ specs, PC.MATCH_CELL_COORDS s = true)) ∧
    (∀ lab s, (∃ t, YT.loadTemplate [lab] [some s] = .ok t) ↔
      (YT.MATCH_CELL_COORDS s).isSome = true) ∧
    (∀ s c f, YT.MATCH_CELL_COORDS s = some (c, f) → PC.MATCH_CELL_COORDS c = true) ∧
    (∀ s, PC.MATCH_CELL_COORDS s = true → YT.MATCH_CELL_COORDS s = some (s, none)) := by
  refine ⟨?_, ?_, ?_, ?_⟩
  · intro labels specs h
    unfold PC.loadTemplate
    rw [if_pos h, PC.loadTemplateLoop_ok_iff]
    have hz : (labels.zip specs).map Prod.snd = specs :=
      List.map_snd_zip labels specs (le_of_eq h.symm)
    constructor
    · intro hall s hs
      rw [← hz] at hs
      obtain ⟨p, hp, rfl⟩ := List.mem_map.mp hs
      exact hall p hp
    · intro hall p hp
      exact hall p.2 (by rw [← hz]; exact List.mem_map_of_mem Prod.snd hp)
  · intro lab s
    have heq : YT.loadTemplate [lab] [some s] = YT.loadTemplateLoop [(lab, some s)] 0 [] := rfl
    rw [heq]
    unfold YT.loadTemplateLoop
    cases hm : YT.MATCH_CELL_COORDS s with
    | none =>
      simp only [hm, Option.isSome_none]
      constructor
      · rintro ⟨t, ht⟩
        exact absurd ht (by simp)
      · intro hfalse
        cases hfalse
    | some g =>
      simp only [hm, Option.isSome_some]
      constructor
      · intro _
        trivial
      · intro _
        exact ⟨_, rfl⟩
  · intro s c f h
    obtain ⟨data⟩ := s
    match data with
    | [] => exact Option.noConfusion h
    | [c0] => exact Option.noConfusion h
    | [c0, k] => exact Option.noConfusion h
    | c0 :: k :: d :: rest =>
      rw [YT.match_cell_coords_cons_rich] at h
      by_cases hcond : (isUpperAZ c0 && (k == ':') && isDigitNZ d) = true
      · rw [if_pos hcond] at h
        have hall : (rest.takeWhile isDigit0).all isDigit0 = true :=
          List.all_eq_true.mpr fun x hx => List.mem_takeWhile_imp hx
        split at h
        · simp only [Option.some.injEq, Prod.mk.injEq] at h
          obtain ⟨hc, -⟩ := h
          rw [← hc, PC.match_cell_coords_cons]
          simp only [Bool.and_eq_true] at hcond ⊢
          exact ⟨hcond, hall⟩
        · split at h
          · simp only [Option.some.injEq, Prod.mk.injEq] at h
            obtain ⟨hc, -⟩ := h
            rw [← hc, PC.match_cell_coords_cons]
            simp only [Bool.and_eq_true] at hcond ⊢
            exact ⟨hcond, hall⟩
          · exact Option.noConfusion h
      · rw [if_neg hcond] at h
        exact Option.noConfusion h
  · intro s h
    obtain ⟨data⟩ := s
    match data with
    | [] => exact Bool.noConfusion h
    | [c0] => exact Bool.noConfusion h
    | [c0, k] => exact Bool.noConfusion h
    | c0 :: k :: d :: rest =>
      rw [PC.match_cell_coords_cons] at h
      simp only [Bool.and_eq_true] at h
      obtain ⟨⟨⟨ha, hb⟩, hc⟩, hall⟩ := h
      rw [YT.match_cell_coords_cons_rich, if_pos (by simp [ha, hb, hc])]
      have htw : rest.takeWhile isDigit0 = rest :=
        List.takeWhile_eq_self_iff.mpr (List.all_eq_true.mp hall)
      have hdw : rest.dropWhile isDigit0 = [] :=
        List.dropWhile_eq_nil_iff.mpr (List.all_eq_true.mp hall)
      rw [hdw, htw]

/-- C2 witness: the amended grammar theorem applied at concrete inputs. -/
theorem c2_single_letter_grammar_witness :
    PC.MATCH_CELL_COORDS "B:2" = true ∧ YT.MATCH_CELL_COORDS "B:21" = some ("B:21", none) :=
  ⟨c2_single_letter_grammar.2.2.1 "B:2(x)" "B:2" (some "x") rfl,
   c2_single_letter_grammar.2.2.2 "B:21" rfl⟩

/-! ## C8: the footnote transform -/

/-- C8: each collected footnote value is its first character, a tab, and the
suffix from index 2 (the expression value[0] + "\t" + value[2:]); in
particular "1 Some text" becomes "1\tSome text". -/
theorem c8_footnote_transform :
    (∀ s : String, ¬ s.data = [] →
      PC.footnoteJoin (Val.str s) = some (s.take 1 ++ "\t" ++ s.drop 2)) ∧
    PC.footnoteJoin (Val.str "1 Some text") = some "1\tSome text" := by
  constructor
  · intro s hs
    obtain ⟨data⟩ := s
    match data, hs with
    | [], hns => exact absurd rfl hns
    | c :: cs, _ =>
      rw [String.take_eq, String.drop_eq]
      rfl
  · rfl

/-- C8 witness: the transform applied to a concrete two-character value. -/
theorem c8_footnote_transform_witness :
    PC.footnoteJoin (Val.str "ab") = some ("ab".take 1 ++ "\t" ++ "ab".drop 2) :=
  c8_footnote_transform.1 "ab" (by simp)

/-! ## C4: a missing coordinate aborts the run with MissingCellError -/

theorem PC.buildRow_first_missing :
    ∀ (t1 : List (String × String)) (lab coords country : String)
      (t2 : List (String × String)) (values : Sheet),
    (∀ p ∈ t1, (lookupCell values p.2).isSome = true) →
    lookupCell values coords = none →
    PC.buildRow (t1 ++ (lab, coords) :: t2) country values =
      .error (.missingCell coords country) := by
  intro t1
  induction t1 with
  | nil =>
    intro lab coords country t2 values _ hmiss
    simp only [List.nil_append]
    unfold PC.buildRow
    rw [hmiss]
  | cons q t1' ih =>
    intro lab coords country t2 values hpre hmiss
    obtain ⟨l0, c0⟩ := q
    have h0 : (lookupCell values c0).isSome = true := hpre (l0, c0) (List.mem_cons_self _ _)
    obtain ⟨v, hv⟩ := Option.isSome_iff_exists.mp h0
    simp only [List.cons_append]
    unfold PC.buildRow
    rw [hv, ih lab coords country t2 values (fun p hp => hpre p (List.mem_cons_of_mem _ hp)) hmiss]

theorem PC.countryRow_buildRow_error (template : List (String × String))
    (country : String) (values : Sheet) (fuel : Nat) (e : Err)
    (h : PC.buildRow template country values = .error e) :
    PC.countryRow template country values fuel = some (.error e) := by
  unfold PC.countryRow
  rw [h]

theorem PC.applyTemplateLoop_error :
    ∀ (pre : List (String × Sheet)) (template : List (String × String))
      (country : String) (values : Sheet) (post : List (String × Sheet)) (fuel : Nat) (e : Err),
    (∀ p ∈ pre, ∃ row, PC.countryRow template p.1 p.2 fuel = some (.ok row)) →
    PC.countryRow template country values fuel = some (.error e) →
    PC.applyTemplateLoop template (pre ++ (country, values) :: post) fuel = some (.error e) := by
  intro pre
  induction pre with
  | nil =>
    intro template country values post fuel e _ herr
    simp only [List.nil_append]
    unfold PC.applyTemplateLoop
    rw [herr]
  | cons q pre' ih =>
    intro template country values post fuel e hpre herr
    obtain ⟨c0, v0⟩ := q
    obtain ⟨row0, hrow0⟩ := hpre (c0, v0) (List.mem_cons_self _ _)
    simp only [List.cons_append]
    unfold PC.applyTemplateLoop
    rw [hrow0, ih template country values post fuel e
      (fun p hp => hpre p (List.mem_cons_of_mem _ hp)) herr]

theorem PC.applyTemplate_of_loop_error (template : List (String × String))
    (countries : List (String × Sheet)) (fuel : Nat) (e : Err)
    (hdup : findDup (template.map Prod.fst) [] = none)
    (hloop : PC.applyTemplateLoop template countries fuel = some (.error e)) :
    PC.applyTemplate template countries fuel = some (.error e) := by
  unfold PC.applyTemplate
  rw [hdup, hloop]

theorem YT.buildRow_first_missing_rich :
    ∀ (t1 : List (String × (String × Option String))) (lab country : String)
      (spec : String × Option String)
      (t2 : List (String × (String × Option String))) (values : Sheet),
    (∀ p ∈ t1, (lookupCell values p.2.1).isSome = true) →
    lookupCell values spec.1 = none →
    YT.buildRow (t1 ++ (lab, spec) :: t2) country values =
      .error (.missingCell spec.1 country) := by
  intro t1
  induction t1 with
  | nil =>
    intro lab country spec t2 values _ hmiss
    obtain ⟨coords, fmt⟩ := spec
    simp only [List.nil_append]
    unfold YT.buildRow
    rw [hmiss]
  | cons q t1' ih =>
    intro lab country spec t2 values hpre hmiss
    obtain ⟨l0, c0, f0⟩ := q
    have h0 : (lookupCell values c0).isSome = true := hpre (l0, (c0, f0)) (List.mem_cons_self _ _)
    obtain ⟨v, hv⟩ := Option.isSome_iff_exists.mp h0
    simp only [List.cons_append]
    unfold YT.buildRow
    rw [hv, ih lab country spec t2 values (fun p hp => hpre p (List.mem_cons_of_mem _ hp)) hmiss]

theorem YT.applyTemplateLoop_error_rich :
    ∀ (pre : List (String × Sheet)) (template : List (String × (String × Option String)))
      (country : String) (values : Sheet) (post : List (String × Sheet)) (e : Err),
    (∀ p ∈ pre, ∃ rw2, YT.buildRow template p.1 p.2 = .ok rw2) →
    YT.buildRow template country values = .error e →
    YT.applyTemplateLoop template (pre ++ (country, values) :: post) = .error e := by
  intro pre
  induction pre with
  | nil =>
    intro template country values post e _ herr
    simp only [List.nil_append]
    unfold YT.applyTemplateLoop
    rw [herr]
  | cons q pre' ih =>
    intro template country values post e hpre herr
    obtain ⟨c0, v0⟩ := q
    obtain ⟨rw0, hrow0⟩ := hpre (c0, v0) (List.mem_cons_self _ _)
    simp only [List.cons_append]
    unfold YT.applyTemplateLoop
    rw [hrow0, ih template country values post e
      (fun p hp => hpre p (List.mem_cons_of_mem _ hp)) herr]

/-- C4: a template coordinate absent from a country's flattened mapping makes
the run fail with MissingCellError; the error carries both the country and
the coordinate in its message, and it is fatal: the whole applyTemplate call
(in either variant) returns that error rather than a table. -/
theorem c4_missing_cell_error :
    (∀ (t1 t2 : List (String × String)) (lab coords country : String) (values : Sheet)
      (pre post : List (String × Sheet)) (fuel : Nat),
      findDup ((t1 ++ (lab, coords) :: t2).map Prod.fst) [] = none →
      (∀ p ∈ pre, ∃ row, PC.countryRow (t1 ++ (lab, coords) :: t2) p.1 p.2 fuel
        = some (.ok row)) →
      (∀ p ∈ t1, (lookupCell values p.2).isSome = true) →
      lookupCell values coords = none →
      PC.applyTemplate (t1 ++ (lab, coords) :: t2) (pre ++ (country, values) :: post) fuel =
        some (.error (.missingCell coords country))) ∧
    (∀ (t1 t2 : List (String × (String × Option String))) (lab country : String)
      (spec : String × Option String) (values : Sheet) (pre post : List (String × Sheet)),
      findDup ((t1 ++ (lab, spec) :: t2).map Prod.fst) [] = none →
      (∀ p ∈ pre, ∃ rw2, YT.buildRow (t1 ++ (lab, spec) :: t2) p.1 p.2 = .ok rw2) →
      (∀ p ∈ t1, (lookupCell values p.2.1).isSome = true) →
      lookupCell values spec.1 = none →
      YT.applyTemplate (t1 ++ (lab, spec) :: t2) (pre ++ (country, values) :: post) =
        .error (.missingCell spec.1 country)) ∧
    (∀ coords country, ∃ a b c, errMsg (.missingCell coords country)
      = a ++ coords ++ b ++ country ++ c) := by
  refine ⟨?_, ?_, ?_⟩
  · intro t1 t2 lab coords country values pre post fuel hdup hpre hbefore hmiss
    exact PC.applyTemplate_of_loop_error _ _ _ _ hdup
      (PC.applyTemplateLoop_error pre _ country values post fuel _ hpre
        (PC.countryRow_buildRow_error _ country values fuel _
          (PC.buildRow_first_missing t1 lab coords country t2 values hbefore hmiss)))
  · intro t1 t2 lab country spec values pre post hdup hpre hbefore hmiss
    unfold YT.applyTemplate
    rw [hdup, YT.applyTemplateLoop_error_rich pre _ country values post _ hpre
      (YT.buildRow_first_missing_rich t1 lab country spec t2 values hbefore hmiss)]
  · intro coords country
    exact ⟨"No data for cell ", " in country ", "", by simp [errMsg]⟩

/-- C4 witness: a template referencing B:2 applied to a country with an empty
sheet fails with the missing-cell error naming the coordinate and country. -/
theorem c4_missing_cell_error_witness :
    PC.applyTemplate [("Name", "B:2")] [("Elbonia", [])] 0 =
      some (.error (.missingCell "B:2" "Elbonia")) ∧
    YT.applyTemplate [("Name", ("B:2", none))] [("Elbonia", [])] =
      .error (.missingCell "B:2" "Elbonia") := by
  constructor
  · exact c4_missing_cell_error.1 [] [] "Name" "B:2" "Elbonia" [] [] [] 0 rfl
      (by intro p hp; exact absurd hp (List.not_mem_nil p))
      (by intro p hp; exact absurd hp (List.not_mem_nil p)) rfl
  · exact c4_missing_cell_error.2.1 [] [] "Name" "Elbonia" ("B:2", none) [] [] [] rfl
      (by intro p hp; exact absurd hp (List.not_mem_nil p))
      (by intro p hp; exact absurd hp (List.not_mem_nil p)) rfl

/-! ## Shape lemmas for the result table -/

theorem PC.collectColA_length_le (colA : Nat → Option Val) :
    ∀ (k r : Nat), ((PC.collectColA colA k r).1).length ≤ k := by
  intro k
  induction k with
  | zero => intro r; exact Nat.le_refl 0
  | succ n ih =>
    intro r
    unfold PC.collectColA
    cases h : colA r with
    | none => simp
    | some v =>
      simp only [List.length_cons]
      exact Nat.succ_le_succ (ih (r + 1))

theorem PC.collectFootnotes_length_le (colA : Nat → Option Val) :
    ∀ (k r : Nat) (fs : List String) (r2 : Nat),
    PC.collectFootnotes colA k r = some (fs, r2) → fs.length ≤ k := by
  intro k
  induction k with
  | zero =>
    intro r fs r2 h
    unfold PC.collectFootnotes at h
    simp only [Option.some.injEq, Prod.mk.injEq] at h
    obtain ⟨rfl, -⟩ := h
    exact Nat.le_refl 0
  | succ n ih =>
    intro r fs r2 h
    unfold PC.collectFootnotes at h
    split at h
    · simp only [Option.some.injEq, Prod.mk.injEq] at h
      obtain ⟨rfl, -⟩ := h
      exact Nat.zero_le _
    · split at h
      · exact Option.noConfusion h
      · split at h
        · exact Option.noConfusion h
        · rename_i fs3 r3 hrec
          simp only [Option.some.injEq, Prod.mk.injEq] at h
          obtain ⟨rfl, -⟩ := h
          exact Nat.succ_le_succ (ih (r + 1) fs3 r3 hrec)

theorem PC.notesPhase_ok_length (colA : Nat → Option Val) (country : String) (fuel : Nat)
    (notes : List (Option Val)) (r2 : Nat)
    (h : PC.notesPhase colA country fuel = some (.ok (notes, r2))) :
    notes.length = PC.MAX_NOTES := by
  unfold PC.notesPhase at h
  split at h
  · exact Option.noConfusion h
  · rename_i r hskip
    split at h
    · simp at h
    · simp only [Option.some.injEq, Except.ok.injEq, Prod.mk.injEq] at h
      obtain ⟨h1, -⟩ := h
      rw [← h1]
      simp only [List.length_append, List.length_map, List.length_replicate]
      exact Nat.add_sub_cancel' (PC.collectColA_length_le colA PC.MAX_NOTES r)

theorem PC.footnotesPhase_ok_length (colA : Nat → Option Val) (country : String)
    (startRow fuel : Nat) (fns : List (Option Val))
    (h : PC.footnotesPhase colA country startRow fuel = some (.ok fns)) :
    fns.length = PC.MAX_FOOTNOTES := by
  unfold PC.footnotesPhase at h
  split at h
  · exact Option.noConfusion h
  · rename_i r hskip
    split at h
    · simp at h
    · rename_i fs r3 hcol
      split at h
      · simp at h
      · simp only [Option.some.injEq, Except.ok.injEq] at h
        rw [← h]
        simp only [List.length_append, List.length_map, List.length_replicate]
        exact Nat.add_sub_cancel'
          (PC.collectFootnotes_length_le colA PC.MAX_FOOTNOTES r fs r3 hcol)

theorem PC.processNotesOn_ok_inv (colA : Nat → Option Val) (country : String)
    (target out : List (Option Val)) (fuel : Nat)
    (h : PC.processNotesOn colA country target fuel = some (.ok out)) :
    ∃ notes r fns, PC.notesPhase colA country fuel = some (.ok (notes, r)) ∧
      PC.footnotesPhase colA country r fuel = some (.ok fns) ∧
      out = target ++ notes ++ fns ∧
      notes.length = PC.MAX_NOTES ∧ fns.length = PC.MAX_FOOTNOTES := by
  unfold PC.processNotesOn at h
  split at h
  · exact Option.noConfusion h
  · simp at h
  · rename_i notes r hnotes
    split at h
    · exact Option.noConfusion h
    · simp at h
    · rename_i fns hfns
      simp only [Option.some.injEq, Except.ok.injEq] at h
      exact ⟨notes, r, fns, hnotes, hfns, h.symm,
        PC.notesPhase_ok_length colA country fuel notes r hnotes,
        PC.footnotesPhase_ok_length colA country r fuel fns hfns⟩

theorem PC.formatImageLink_some_inv (country : String) (target out : List (Option Val))
    (h : PC.formatImageLink country target = some out) :
    out = target.set PC.IMAGE_COLUMN (some (Val.str (PC.IMAGE_FORMAT country))) ∧
      PC.IMAGE_COLUMN < target.length := by
  unfold PC.formatImageLink at h
  split at h
  · simp only [Option.some.injEq] at h
    exact ⟨h.symm, by assumption⟩
  · exact Option.noConfusion h

theorem PC.buildRow_ok_length :
    ∀ (template : List (String × String)) (country : String) (values : Sheet)
      (row : List (Option Val)),
    PC.buildRow template country values = .ok row → row.length = template.length := by
  intro template
  induction template with
  | nil =>
    intro country values row h
    unfold PC.buildRow at h
    simp only [Except.ok.injEq] at h
    rw [← h]
    rfl
  | cons q rest ih =>
    intro country values row h
    obtain ⟨lab, coords⟩ := q
    unfold PC.buildRow at h
    split at h
    · exact Except.noConfusion h
    · split at h
      · exact Except.noConfusion h
      · rename_i row' hrow
        simp only [Except.ok.injEq] at h
        rw [← h]
        simp only [List.length_cons]
        rw [ih country values row' hrow]

theorem PC.countryRow_ok_inv (template : List (String × String)) (country : String)
    (values : Sheet) (fuel : Nat) (row : List (Option Val))
    (h : PC.countryRow template country values fuel = some (.ok row)) :
    ∃ row1 row2, PC.buildRow template country values = .ok row1 ∧
      PC.processNotes country values row1 fuel = some (.ok row2) ∧
      PC.formatImageLink country row2 = some row := by
  unfold PC.countryRow at h
  split at h
  · simp at h
  · rename_i row1 hb
    split at h
    · exact Option.noConfusion h
    · simp at h
    · rename_i row2 hp
      split at h
      · simp at h
      · rename_i row3 hi
        simp only [Option.some.injEq, Except.ok.injEq] at h
        exact ⟨row1, row2, hb, hp, by rw [hi, h]⟩

theorem PC.countryRow_ok_length (template : List (String × String)) (country : String)
    (values : Sheet) (fuel : Nat) (row : List (Option Val))
    (h : PC.countryRow template country values fuel = some (.ok row)) :
    row.length = template.length + (PC.MAX_NOTES + PC.MAX_FOOTNOTES) := by
  obtain ⟨row1, row2, hb, hp, hi⟩ := PC.countryRow_ok_inv template country values fuel row h
  obtain ⟨notes, r, fns, -, -, hout, hnl, hfl⟩ :=
    PC.processNotesOn_ok_inv (PC.getColA values) country row1 row2 fuel hp
  obtain ⟨hset, -⟩ := PC.formatImageLink_some_inv country row2 row hi
  rw [hset, List.length_set, hout]
  simp only [List.length_append, hnl, hfl]
  rw [PC.buildRow_ok_length template country values row1 hb]
  exact Nat.add_assoc _ _ _

theorem PC.applyTemplateLoop_ok_nth (template : List (String × String)) (fuel : Nat) :
    ∀ (countries : List (String × Sheet)) (rows : List (List (Option Val))),
    PC.applyTemplateLoop template countries fuel = some (.ok rows) →
    rows.length = countries.length ∧
    ∀ (i : Nat) (c : String) (values : Sheet), countries[i]? = some (c, values) →
      ∃ row, rows[i]? = some row ∧ PC.countryRow template c values fuel = some (.ok row) := by
  intro countries
  induction countries with
  | nil =>
    intro rows h
    unfold PC.applyTemplateLoop at h
    simp only [Option.some.injEq, Except.ok.injEq] at h
    rw [← h]
    exact ⟨rfl, by intro i c values hc; simp at hc⟩
  | cons q rest ih =>
    intro rows h
    obtain ⟨c0, v0⟩ := q
    unfold PC.applyTemplateLoop at h
    split at h
    · exact Option.noConfusion h
    · simp at h
    · rename_i row0 hc
      split at h
      · exact Option.noConfusion h
      · simp at h
      · rename_i rows' hl
        simp only [Option.some.injEq, Except.ok.injEq] at h
        obtain ⟨hlen, hnth⟩ := ih rows' hl
        rw [← h]
        refine ⟨by simp [hlen], ?_⟩
        intro i c values hcv
        cases i with
        | zero =>
          simp only [List.getElem?_cons_zero, Option.some.injEq] at hcv
          have hc' : c = c0 ∧ values = v0 := by
            constructor
            · exact congrArg Prod.fst hcv.symm
            · exact congrArg Prod.snd hcv.symm
          obtain ⟨rfl, rfl⟩ := hc'
          exact ⟨row0, by simp, hc⟩
        | succ n =>
          simp only [List.getElem?_cons_succ] at hcv ⊢
          exact hnth n c values hcv

theorem PC.headerRow_length (template : List (String × String)) :
    (PC.headerRow template).length = template.length + (PC.MAX_NOTES + PC.MAX_FOOTNOTES) := by
  unfold PC.headerRow
  simp [List.length_append, List.length_map, List.length_range, Nat.add_assoc]

theorem PC.applyTemplate_ok_inv (template : List (String × String))
    (countries : List (String × Sheet)) (fuel : Nat) (rows : List (List (Option Val)))
    (h : PC.applyTemplate template countries fuel = some (.ok rows)) :
    ∃ rows', rows = PC.headerRow template :: rows' ∧
      PC.applyTemplateLoop template countries fuel = some (.ok rows') := by
  unfold PC.applyTemplate at h
  split at h
  · simp at h
  · split at h
    · exact Option.noConfusion h
    · simp at h
    · rename_i rows' hl
      simp only [Option.some.injEq, Except.ok.injEq] at h
      exact ⟨rows', h.symm, hl⟩

theorem PC.applyTemplateLoop_ok_mem (template : List (String × String)) (fuel : Nat) :
    ∀ (countries : List (String × Sheet)) (rows : List (List (Option Val))),
    PC.applyTemplateLoop template countries fuel = some (.ok rows) →
    rows.length = countries.length ∧
    ∀ row ∈ rows, row.length = template.length + (PC.MAX_NOTES + PC.MAX_FOOTNOTES) := by
  intro countries
  induction countries with
  | nil =>
    intro rows h
    unfold PC.applyTemplateLoop at h
    simp only [Option.some.injEq, Except.ok.injEq] at h
    rw [← h]
    exact ⟨rfl, by intro row hr; exact absurd hr (List.not_mem_nil row)⟩
  | cons q rest ih =>
    intro rows h
    obtain ⟨c0, v0⟩ := q
    unfold PC.applyTemplateLoop at h
    split at h
    · exact Option.noConfusion h
    · simp at h
    · rename_i row0 hc
      split at h
      · exact Option.noConfusion h
      · simp at h
      · rename_i rows' hl
        simp only [Option.some.injEq, Except.ok.injEq] at h
        obtain ⟨hlen, hmem⟩ := ih rows' hl
        rw [← h]
        refine ⟨by simp [hlen], ?_⟩
        intro row hr
        rcases List.mem_cons.mp hr with rfl | hr'
        · exact PC.countryRow_ok_length template c0 v0 fuel row hc
        · exact hmem row hr'

theorem YT.buildRow_ok_length_rich :
    ∀ (template : List (String × (String × Option String))) (country : String) (values : Sheet)
      (row : List (Option Val)) (warns : List String),
    YT.buildRow template country values = .ok (row, warns) → row.length = template.length := by
  intro template
  induction template with
  | nil =>
    intro country values row warns h
    unfold YT.buildRow at h
    simp only [Except.ok.injEq, Prod.mk.injEq] at h
    obtain ⟨rfl, -⟩ := h
    rfl
  | cons q rest ih =>
    intro country values row warns h
    obtain ⟨lab, coords, fmt⟩ := q
    unfold YT.buildRow at h
    split at h
    · exact Except.noConfusion h
    · split at h
      · exact Except.noConfusion h
      · rename_i p row' warns' hrow
        simp only [Except.ok.injEq, Prod.mk.injEq] at h
        obtain ⟨rfl, -⟩ := h
        simp only [List.length_cons]
        rw [ih country values row' warns' hrow]

theorem YT.applyTemplateLoop_ok_mem_rich (template : List (String × (String × Option String))) :
    ∀ (countries : List (String × Sheet)) (rows : List (List (Option Val)))
      (warns : List String),
    YT.applyTemplateLoop template countries = .ok (rows, warns) →
    rows.length = countries.length ∧ ∀ row ∈ rows, row.length = template.length := by
  intro countries
  induction countries with
  | nil =>
    intro rows warns h
    unfold YT.applyTemplateLoop at h
    simp only [Except.ok.injEq, Prod.mk.injEq] at h
    obtain ⟨rfl, -⟩ := h
    exact ⟨rfl, by intro row hr; exact absurd hr (List.not_mem_nil row)⟩
  | cons q rest ih =>
    intro rows warns h
    obtain ⟨c0, v0⟩ := q
    unfold YT.applyTemplateLoop at h
    split at h
    · exact Except.noConfusion h
    · rename_i p row0 warns0 hb
      split at h
      · exact Except.noConfusion h
      · rename_i p2 rows' warns' hl
        simp only [Except.ok.injEq, Prod.mk.injEq] at h
        obtain ⟨rfl, -⟩ := h
        obtain ⟨hlen, hmem⟩ := ih rows' warns' hl
        refine ⟨by simp [hlen], ?_⟩
        intro row hr
        rcases List.mem_cons.mp hr with rfl | hr'
        · exact YT.buildRow_ok_length_rich template c0 v0 row warns0 hb
        · exact hmem row hr'

theorem YT.applyTemplate_ok_inv_rich (template : List (String × (String × Option String)))
    (countries : List (String × Sheet)) (rows : List (List (Option Val)))
    (warns : List String)
    (h : YT.applyTemplate template countries = .ok (rows, warns)) :
    ∃ rows', rows = (template.map fun p => some (Val.str p.1)) :: rows' ∧
      YT.applyTemplateLoop template countries = .ok (rows', warns) := by
  unfold YT.applyTemplate at h
  split at h
  · exact Except.noConfusion h
  · split at h
    · exact Except.noConfusion h
    · rename_i p rows' warns' hl
      simp only [Except.ok.injEq, Prod.mk.injEq] at h
      obtain ⟨h1, rfl⟩ := h
      exact ⟨rows', h1.symm, hl⟩

/-! ## C5: the shape of the result table -/

/-- C5: for a template with N labels and M country sheets, a completed run
returns exactly 1 + M rows, every row of the same width: N plus the twenty
synthetic NOTE/FOOTNOTE columns in the notes-aware variant, and exactly N in
the richer variant. -/
theorem c5_table_shape :
    (∀ (template : List (String × String)) (countries : List (String × Sheet)) (fuel : Nat)
      (rows : List (List (Option Val))),
      PC.applyTemplate template countries fuel = some (.ok rows) →
      rows.length = 1 + countries.length ∧
      ∀ row ∈ rows, row.length = template.length + (PC.MAX_NOTES + PC.MAX_FOOTNOTES)) ∧
    (∀ (template : List (String × (String × Option String))) (countries : List (String × Sheet))
      (rows : List (List (Option Val))) (warns : List String),
      YT.applyTemplate template countries = .ok (rows, warns) →
      rows.length = 1 + countries.length ∧ ∀ row ∈ rows, row.length = template.length) := by
  constructor
  · intro template countries fuel rows h
    obtain ⟨rows', rfl, hloop⟩ := PC.applyTemplate_ok_inv template countries fuel rows h
    obtain ⟨hlen, hmem⟩ := PC.applyTemplateLoop_ok_mem template fuel countries rows' hloop
    refine ⟨by simp [hlen, Nat.add_comm], ?_⟩
    intro row hr
    rcases List.mem_cons.mp hr with rfl | hr'
    · exact PC.headerRow_length template
    · exact hmem row hr'
  · intro template countries rows warns h
    obtain ⟨rows', rfl, hloop⟩ := YT.applyTemplate_ok_inv_rich template countries rows warns h
    obtain ⟨hlen, hmem⟩ := YT.applyTemplateLoop_ok_mem_rich template countries rows' warns hloop
    refine ⟨by simp [hlen, Nat.add_comm], ?_⟩
    intro row hr
    rcases List.mem_cons.mp hr with rfl | hr'
    · exact List.length_map template _
    · exact hmem row hr'

/-- C5 witness: the shape theorem applied to two concrete completed runs. -/
theorem c5_table_shape_witness :
    ((okRows (PC.applyTemplate [("Name", "B:1")] [("Elbonia", dupLabelSheet)] 4)).length
        = 1 + 1 ∧
      ∀ row ∈ okRows (PC.applyTemplate [("Name", "B:1")] [("Elbonia", dupLabelSheet)] 4),
        row.length = [("Name", "B:1")].length + (PC.MAX_NOTES + PC.MAX_FOOTNOTES)) ∧
    ((okRowsYT (YT.applyTemplate [("Name", ("B:1", none))]
          [("Elbonia", [("B:1", some (Val.str "X"))])])).length = 1 + 1 ∧
      ∀ row ∈ okRowsYT (YT.applyTemplate [("Name", ("B:1", none))]
          [("Elbonia", [("B:1", some (Val.str "X"))])]),
        row.length = [("Name", ("B:1", (none : Option String)))].length) :=
  ⟨c5_table_shape.1 [("Name", "B:1")] [("Elbonia", dupLabelSheet)] 4 _ rfl,
   c5_table_shape.2 [("Name", ("B:1", none))] [("Elbonia", [("B:1", some (Val.str "X"))])]
     _ _ rfl⟩

/-! ## C6: notes collection, overflow and padding -/

theorem isSome_of_lt {α : Type} (l : List α) (i : Nat) (h : i < l.length) :
    (l[i]?).isSome = true := by
  rw [List.getElem?_eq_getElem h]
  rfl

theorem PC.skipBlanks_finds (colA : Nat → Option Val) :
    ∀ (fuel s r1 : Nat), s ≤ r1 → r1 < s + fuel →
    (∀ r, s ≤ r → r < r1 → colA r = none) → (colA r1).isSome = true →
    PC.skipBlanks colA fuel s = some r1 := by
  intro fuel
  induction fuel with
  | zero =>
    intro s r1 hle hlt _ _
    exact absurd hlt (by omega)
  | succ n ih =>
    intro s r1 hle hlt hblank hsome
    unfold PC.skipBlanks
    rcases Nat.eq_or_lt_of_le hle with rfl | hlt2
    · obtain ⟨v, hv⟩ := Option.isSome_iff_exists.mp hsome
      rw [hv]
    · rw [hblank s (Nat.le_refl s) hlt2]
      exact ih (s + 1) r1 hlt2 (by omega) (fun r hr hr2 => hblank r (by omega) hr2) hsome

theorem PC.collectColA_run (colA : Nat → Option Val) :
    ∀ (vs : List Val) (k r : Nat),
    (∀ i, i < vs.length → colA (r + i) = vs[i]?) →
    vs.length ≤ k → colA (r + vs.length) = none →
    PC.collectColA colA k r = (vs, r + vs.length) := by
  intro vs
  induction vs with
  | nil =>
    intro k r hrun hk hend
    have h0 : colA r = none := by simpa using hend
    cases k with
    | zero => simp [PC.collectColA]
    | succ n =>
      unfold PC.collectColA
      rw [h0]
      simp
  | cons v vs' ih =>
    intro k r hrun hk hend
    cases k with
    | zero => exact absurd hk (by simp)
    | succ n =>
      have h0 : colA r = some v := by simpa using hrun 0 (by simp)
      unfold PC.collectColA
      rw [h0]
      have hrec := ih n (r + 1)
        (by
          intro i hi
          have h1 := hrun (i + 1) (by simp only [List.length_cons]; omega)
          have h2 : r + (i + 1) = r + 1 + i := by omega
          rw [h2] at h1
          simpa using h1)
        (by simp only [List.length_cons] at hk; omega)
        (by
          have h3 : r + (v :: vs').length = r + 1 + vs'.length := by
            simp only [List.length_cons]
            omega
          rw [h3] at hend
          exact hend)
      rw [hrec]
      simp only [List.length_cons, Prod.mk.injEq]
      refine ⟨by simp, by omega⟩

theorem PC.collectColA_full (colA : Nat → Option Val) :
    ∀ (k r : Nat), (∀ i, i < k → (colA (r + i)).isSome = true) →
    (PC.collectColA colA k r).2 = r + k := by
  intro k
  induction k with
  | zero =>
    intro r _
    simp [PC.collectColA]
  | succ n ih =>
    intro r hall
    have h0 : (colA r).isSome = true := by simpa using hall 0 (by omega)
    obtain ⟨v, hv⟩ := Option.isSome_iff_exists.mp h0
    unfold PC.collectColA
    rw [hv]
    have hrec := ih (r + 1) (by
      intro i hi
      have := hall (i + 1) (by omega)
      have h2 : r + (i + 1) = r + 1 + i := by omega
      rw [h2] at this
      exact this)
    simp only []
    rw [hrec]
    omega

theorem PC.notesPhase_eq_of_skip (colA : Nat → Option Val) (country : String)
    (fuel r1 : Nat)
    (hskip : PC.skipBlanks colA fuel (PC.LAST_DATA_ROW + 1) = some r1) :
    PC.notesPhase colA country fuel =
      (if (colA (PC.collectColA colA PC.MAX_NOTES r1).2).isSome then
        some (.error (.tooManyNotes country))
      else some (.ok ((PC.collectColA colA PC.MAX_NOTES r1).1.map some
          ++ List.replicate (PC.MAX_NOTES - (PC.collectColA colA PC.MAX_NOTES r1).1.length) none,
        (PC.collectColA colA PC.MAX_NOTES r1).2))) := by
  unfold PC.notesPhase
  rw [hskip]

/-- C6: per country, the notes block extraction skips blank column-A cells
starting just after the last templated data row, collects the following run
of non-blank values as notes; with at most ten and a blank after them it
pads with empty values to exactly ten, and with a non-blank value remaining
after ten collected it fails with TooManyNotesError. -/
theorem c6_notes_extraction :
    ∀ (colA : Nat → Option Val) (country : String) (r1 fuel : Nat) (vs : List Val),
    PC.LAST_DATA_ROW < r1 →
    r1 < PC.LAST_DATA_ROW + 1 + fuel →
    0 < vs.length →
    (∀ r, PC.LAST_DATA_ROW < r → r < r1 → colA r = none) →
    (∀ i, i < vs.length → colA (r1 + i) = vs[i]?) →
    ((vs.length ≤ PC.MAX_NOTES → colA (r1 + vs.length) = none →
      PC.notesPhase colA country fuel =
        some (.ok (vs.map some ++ List.replicate (PC.MAX_NOTES - vs.length) none,
          r1 + vs.length))) ∧
     (PC.MAX_NOTES < vs.length →
      PC.notesPhase colA country fuel = some (.error (.tooManyNotes country)))) := by
  intro colA country r1 fuel vs h69 hfuel hpos hblank hrun
  have hsome : (colA r1).isSome = true := by
    have h1 := hrun 0 hpos
    simp only [Nat.add_zero] at h1
    rw [h1]
    exact isSome_of_lt vs 0 hpos
  have hskip : PC.skipBlanks colA fuel (PC.LAST_DATA_ROW + 1) = some r1 :=
    PC.skipBlanks_finds colA fuel (PC.LAST_DATA_ROW + 1) r1 (by omega) (by omega)
      (fun r hr hr2 => hblank r (by omega) hr2) hsome
  constructor
  · intro hle hend
    have hcol := PC.collectColA_run colA vs PC.MAX_NOTES r1 hrun hle hend
    rw [PC.notesPhase_eq_of_skip colA country fuel r1 hskip, hcol]
    simp [hend]
  · intro hgt
    have hfull : ∀ i, i < PC.MAX_NOTES → (colA (r1 + i)).isSome = true := by
      intro i hi
      have h1 := hrun i (by omega)
      rw [h1]
      exact isSome_of_lt vs i (by omega)
    have h2 := PC.collectColA_full colA PC.MAX_NOTES r1 hfull
    have h10 : (colA (r1 + PC.MAX_NOTES)).isSome = true := by
      have h1 := hrun PC.MAX_NOTES hgt
      rw [h1]
      exact isSome_of_lt vs PC.MAX_NOTES hgt
    rw [PC.notesPhase_eq_of_skip colA country fuel r1 hskip, h2]
    simp [h10]

/-- C6 witness: three-value padding and eleven-value overflow, concretely. -/
theorem c6_notes_extraction_witness :
    PC.notesPhase (fun r => if r = 70 then some (Val.str "n1") else none) "Elbonia" 1 =
      some (.ok ([Val.str "n1"].map some
        ++ List.replicate (PC.MAX_NOTES - [Val.str "n1"].length) none,
        70 + [Val.str "n1"].length)) ∧
    PC.notesPhase (fun r => if 70 ≤ r ∧ r ≤ 80 then some (Val.str "x") else none) "Elbonia" 1 =
      some (.error (.tooManyNotes "Elbonia")) := by
  constructor
  · refine (c6_notes_extraction (fun r => if r = 70 then some (Val.str "n1") else none)
      "Elbonia" 70 1 [Val.str "n1"] (by decide) (by decide) (by decide)
      (by intro r h1 h2; simp only [PC.LAST_DATA_ROW] at h1; exact False.elim (by omega))
      ?_).1 (by decide) rfl
    intro i hi
    match i, hi with
    | 0, _ => rfl
  · refine (c6_notes_extraction (fun r => if 70 ≤ r ∧ r ≤ 80 then some (Val.str "x") else none)
      "Elbonia" 70 1 (List.replicate 11 (Val.str "x")) (by decide) (by decide) (by decide)
      (by intro r h1 h2; simp only [PC.LAST_DATA_ROW] at h1; exact False.elim (by omega))
      ?_).2 (by decide)
    intro i hi
    simp only [List.length_replicate] at hi
    have hcond : 70 ≤ 70 + i ∧ 70 + i ≤ 80 := by omega
    show (if 70 ≤ 70 + i ∧ 70 + i ≤ 80 then some (Val.str "x") else none) = _
    rw [if_pos hcond, List.getElem?_replicate, if_pos hi]

/-! ## C7: format application, fallback and continuation -/

theorem YT.formatCell_some (country coords f : String) (raw : Option Val) (s : String)
    (hne : ¬ f = "") (h : YT.applyFormat f raw = some s) :
    YT.formatCell country coords (some f) raw = (some (Val.str s), []) := by
  unfold YT.formatCell
  simp only [if_neg hne, h]

theorem YT.formatCell_fallback (country coords f : String) (raw : Option Val)
    (hne : ¬ f = "") (h : YT.applyFormat f raw = none) :
    YT.formatCell country coords (some f) raw = (raw,
      ["WARNING: Format error for " ++ country ++ " at " ++ coords]) := by
  unfold YT.formatCell
  simp only [if_neg hne, h]

theorem YT.buildRow_cons_ok (lab coords : String) (fmt : Option String)
    (rest : List (String × (String × Option String))) (country : String) (values : Sheet)
    (raw : Option Val) (tail : List (Option Val)) (warns : List String)
    (hlook : lookupCell values coords = some raw)
    (hrest : YT.buildRow rest country values = .ok (tail, warns)) :
    YT.buildRow ((lab, (coords, fmt)) :: rest) country values =
      .ok ((YT.formatCell country coords fmt raw).1 :: tail,
        (YT.formatCell country coords fmt raw).2 ++ warns) := by
  unfold YT.buildRow
  rw [hlook, hrest]

/-- C7: in the richer variant, a successful format application replaces the
raw value by the formatted string (e.g. the format applied to 42 with one
fixed decimal and a percent sign yields "42.0%"); a failing one logs a
warning naming the country and coordinate and keeps the unformatted raw
value, and in both cases the remaining columns and remaining countries are
still processed. -/
theorem c7_format_fallback :
    YT.applyFormat "\x7b:.1f\x7d%" (some (Val.int 42)) = some "42.0%" ∧
    (∀ (lab coords f country : String) (values : Sheet)
      (rest : List (String × (String × Option String))) (raw : Option Val)
      (tail : List (Option Val)) (warns : List String),
      lookupCell values coords = some raw → ¬ f = "" →
      YT.buildRow rest country values = .ok (tail, warns) →
      ((∀ s, YT.applyFormat f raw = some s →
        YT.buildRow ((lab, (coords, some f)) :: rest) country values
          = .ok (some (Val.str s) :: tail, warns)) ∧
       (YT.applyFormat f raw = none →
        YT.buildRow ((lab, (coords, some f)) :: rest) country values
          = .ok (raw :: tail,
            ("WARNING: Format error for " ++ country ++ " at " ++ coords) :: warns)))) ∧
    (∀ (template : List (String × (String × Option String))) (c : String) (values : Sheet)
      (rest : List (String × Sheet)) (row : List (Option Val))
      (warns : List String) (rows : List (List (Option Val))) (warns2 : List String),
      YT.buildRow template c values = .ok (row, warns) →
      YT.applyTemplateLoop template rest = .ok (rows, warns2) →
      YT.applyTemplateLoop template ((c, values) :: rest) = .ok (row :: rows, warns ++ warns2)) := by
  refine ⟨rfl, ?_, ?_⟩
  · intro lab coords f country values rest raw tail warns hlook hne hrest
    constructor
    · intro s hs
      rw [YT.buildRow_cons_ok lab coords (some f) rest country values raw tail warns hlook hrest,
        YT.formatCell_some country coords f raw s hne hs]
      rfl
    · intro hs
      rw [YT.buildRow_cons_ok lab coords (some f) rest country values raw tail warns hlook hrest,
        YT.formatCell_fallback country coords f raw hne hs]
      rfl
  · intro template c values rest row warns rows warns2 h1 h2
    unfold YT.applyTemplateLoop
    rw [h1, h2]

/-- C7 witness: formatting success, formatting fallback with its warning,
and continuation of the country loop, each at concrete inputs. -/
theorem c7_format_fallback_witness :
    YT.buildRow [("Pct", ("B:2", some "\x7b:.1f\x7d%"))] "Elbonia"
        [("B:2", some (Val.int 42))] = .ok ([some (Val.str "42.0%")], []) ∧
    YT.buildRow [("Pct", ("B:2", some "\x7b:.1f\x7d%"))] "Elbonia"
        [("B:2", some (Val.str "n/a"))]
      = .ok ([some (Val.str "n/a")],
        ["WARNING: Format error for " ++ "Elbonia" ++ " at " ++ "B:2"]) ∧
    YT.applyTemplateLoop [] [("Elbonia", ([] : Sheet))] = .ok ([[]], []) :=
  ⟨(c7_format_fallback.2.1 "Pct" "B:2" "\x7b:.1f\x7d%" "Elbonia"
      [("B:2", some (Val.int 42))] [] (some (Val.int 42)) [] [] rfl (by decide) rfl).1
      "42.0%" rfl,
   (c7_format_fallback.2.1 "Pct" "B:2" "\x7b:.1f\x7d%" "Elbonia"
      [("B:2", some (Val.str "n/a"))] [] (some (Val.str "n/a")) [] [] rfl (by decide) rfl).2
      rfl,
   c7_format_fallback.2.2 [] "Elbonia" [] [] [] [] [] [] rfl rfl⟩

/-! ## C9 and C10: the image-link write into column index 3 -/

/-- C9: per country, the image-link step writes "/Links/<Country>.svg" into
output column index 3 of that country's row, whatever templated value was
there, and leaves every other column of the row unchanged; consequently in
every completed run each country row carries the link at index 3. -/
theorem c9_image_link_column :
    (∀ (country : String) (target : List (Option Val)),
      PC.IMAGE_COLUMN < target.length →
      ∃ out, PC.formatImageLink country target = some out ∧
        out[PC.IMAGE_COLUMN]? = some (some (Val.str ("/Links/" ++ country ++ ".svg"))) ∧
        ∀ j, ¬ j = PC.IMAGE_COLUMN → out[j]? = target[j]?) ∧
    (∀ (template : List (String × String)) (countries : List (String × Sheet)) (fuel : Nat)
      (rows : List (List (Option Val))) (i : Nat) (c : String) (values : Sheet),
      PC.applyTemplate template countries fuel = some (.ok rows) →
      countries[i]? = some (c, values) →
      ∃ row, rows[i + 1]? = some row ∧
        row[PC.IMAGE_COLUMN]? = some (some (Val.str ("/Links/" ++ c ++ ".svg")))) := by
  constructor
  · intro country target h
    refine ⟨target.set PC.IMAGE_COLUMN (some (Val.str (PC.IMAGE_FORMAT country))), ?_, ?_, ?_⟩
    · unfold PC.formatImageLink
      rw [if_pos h]
    · rw [List.getElem?_set_self h]
      rfl
    · intro j hj
      exact List.getElem?_set_ne (fun hh => hj hh.symm)
  · intro template countries fuel rows i c values happ hci
    obtain ⟨rows', rfl, hloop⟩ := PC.applyTemplate_ok_inv template countries fuel rows happ
    obtain ⟨-, hnth⟩ := PC.applyTemplateLoop_ok_nth template fuel countries rows' hloop
    obtain ⟨row, hrow, hcr⟩ := hnth i c values hci
    obtain ⟨row1, row2, -, -, hi⟩ := PC.countryRow_ok_inv template c values fuel row hcr
    obtain ⟨hset, hlt⟩ := PC.formatImageLink_some_inv c row2 row hi
    refine ⟨row, ?_, ?_⟩
    · rw [List.getElem?_cons_succ]
      exact hrow
    · rw [hset, List.getElem?_set_self hlt]
      rfl

/-- C9 witness: the image-link properties at a concrete short row and at a
concrete completed run. -/
theorem c9_image_link_column_witness :
    (∃ out, PC.formatImageLink "Elbonia" (List.replicate 4 none) = some out ∧
      out[PC.IMAGE_COLUMN]? = some (some (Val.str ("/Links/" ++ "Elbonia" ++ ".svg"))) ∧
      ∀ j, ¬ j = PC.IMAGE_COLUMN → out[j]? = (List.replicate 4 (none : Option Val))[j]?) ∧
    (∃ row, (okRows (PC.applyTemplate [("Name", "B:1")]
        [("Elbonia", dupLabelSheet)] 4))[0 + 1]? = some row ∧
      row[PC.IMAGE_COLUMN]? = some (some (Val.str ("/Links/" ++ "Elbonia" ++ ".svg")))) :=
  ⟨c9_image_link_column.1 "Elbonia" (List.replicate 4 none) (by decide),
   c9_image_link_column.2 [("Name", "B:1")] [("Elbonia", dupLabelSheet)] 4 _ 0 "Elbonia"
     dupLabelSheet rfl rfl⟩

/-- C10: processNotes appends exactly twenty entries to a country's row, so
the row the image-link step receives always has at least twenty entries and
the write to index 3 is in bounds for every template; when the template has
at most three columns, position 3 of that row holds one of the NOTE entries,
so the link silently replaces a note value rather than a templated value. -/
theorem c10_image_link_in_bounds :
    (∀ (colA : Nat → Option Val) (country : String) (target out : List (Option Val))
      (fuel : Nat),
      PC.processNotesOn colA country target fuel = some (.ok out) →
      out.length = target.length + (PC.MAX_NOTES + PC.MAX_FOOTNOTES) ∧
      (PC.formatImageLink country out).isSome = true) ∧
    (∀ (colA : Nat → Option Val) (country : String) (target out : List (Option Val))
      (fuel : Nat),
      PC.processNotesOn colA country target fuel = some (.ok out) →
      target.length ≤ 3 →
      ∃ notes r, PC.notesPhase colA country fuel = some (.ok (notes, r)) ∧
        notes.length = PC.MAX_NOTES ∧
        out[PC.IMAGE_COLUMN]? = notes[PC.IMAGE_COLUMN - target.length]?) := by
  constructor
  · intro colA country target out fuel h
    obtain ⟨notes, r, fns, -, -, hout, hnl, hfl⟩ :=
      PC.processNotesOn_ok_inv colA country target out fuel h
    have hlen : out.length = target.length + (PC.MAX_NOTES + PC.MAX_FOOTNOTES) := by
      rw [hout]
      simp [List.length_append, hnl, hfl, Nat.add_assoc]
    refine ⟨hlen, ?_⟩
    have hlt : PC.IMAGE_COLUMN < out.length := by
      rw [hlen]
      simp only [PC.IMAGE_COLUMN, PC.MAX_NOTES, PC.MAX_FOOTNOTES]
      omega
    unfold PC.formatImageLink
    rw [if_pos hlt]
    rfl
  · intro colA country target out fuel h hle
    obtain ⟨notes, r, fns, hnp, -, hout, hnl, -⟩ :=
      PC.processNotesOn_ok_inv colA country target out fuel h
    refine ⟨notes, r, hnp, hnl, ?_⟩
    rw [hout]
    rw [List.getElem?_append_left (by
      simp only [List.length_append, PC.IMAGE_COLUMN]
      rw [hnl]
      simp only [PC.MAX_NOTES]
      omega)]
    rw [List.getElem?_append_right (by simp only [PC.IMAGE_COLUMN]; exact hle)]

/-- C10 witness: the bounds and note-replacement facts at a concrete country
sheet processed with an empty template row. -/
theorem c10_image_link_in_bounds_witness :
    ((okRowPN (PC.processNotesOn (PC.getColA dupLabelSheet) "Elbonia" [] 4)).length
        = ([] : List (Option Val)).length + (PC.MAX_NOTES + PC.MAX_FOOTNOTES) ∧
      (PC.formatImageLink "Elbonia"
        (okRowPN (PC.processNotesOn (PC.getColA dupLabelSheet) "Elbonia" [] 4))).isSome
        = true) ∧
    (∃ notes r, PC.notesPhase (PC.getColA dupLabelSheet) "Elbonia" 4 = some (.ok (notes, r)) ∧
      notes.length = PC.MAX_NOTES ∧
      (okRowPN (PC.processNotesOn (PC.getColA dupLabelSheet) "Elbonia" [] 4))[PC.IMAGE_COLUMN]?
        = notes[PC.IMAGE_COLUMN - ([] : List (Option Val)).length]?) :=
  ⟨c10_image_link_in_bounds.1 (PC.getColA dupLabelSheet) "Elbonia" [] _ 4 rfl,
   c10_image_link_in_bounds.2 (PC.getColA dupLabelSheet) "Elbonia" [] _ 4 rfl (by decide)⟩

